import Mathlib

set_option maxHeartbeats 1000000

namespace LectureSummarizer

/-!
Shallow embedding of the lecture-summarizer UI logic.

Sources:
- src/src/components/VoiceRecorder.tsx (batch file strategy: upload
  validation, Whisper post-processing with adjacent-duplicate cleanup and
  50,000-word truncation);
- src/unnamed/part_000 and part_001 (live dictation strategy:
  recognition.onresult event handling);
- src/src/components/NotesGenerator.tsx (notes formatter, Markdown download
  and plain-text clipboard export).

JavaScript strings are modelled as lists of characters (`Str`), so that all
operations are structurally recursive and computable by the kernel.
-/

/-- JavaScript strings are modelled as lists of characters. -/
abbrev Str := List Char

/-- Convert a Lean string literal to the model type. -/
def str (s : String) : Str := s.data

/-- JS `toLowerCase()` (character-wise lowering). -/
def toLower (s : Str) : Str := s.map Char.toLower

/-- JS `trim()`: strip leading and trailing whitespace. -/
def trim (s : Str) : Str :=
  ((s.dropWhile Char.isWhitespace).reverse.dropWhile Char.isWhitespace).reverse

/-- Split a string at every character satisfying `p`; delimiters are dropped,
and adjacent delimiters yield empty fragments.  JS `split(/[cs]+/)` collapses
delimiter runs instead, which differs from this only by extra empty fragments;
every use below immediately discards empty fragments by a length filter, so
the two agree on all modelled pipelines. -/
def splitOnPred (p : Char → Bool) : Str → List Str
  | [] => [[]]
  | c :: cs =>
    if p c then [] :: splitOnPred p cs
    else
      match splitOnPred p cs with
      | [] => [[c]]
      | f :: fs => (c :: f) :: fs

/-- JS `split(/\s+/)` (up to empty fragments, see `splitOnPred`). -/
def splitWs (s : Str) : List Str := splitOnPred Char.isWhitespace s

/-! ### Batch post-processing (`transcribeAudio`, VoiceRecorder.tsx lines 456-480) -/

/-- One step of the adjacent-duplicate cleanup: the word at position `i` is
kept iff `currentWord && (!nextWord || currentWord.toLowerCase() !==
nextWord.toLowerCase())`, where `next` is the original following word
(`none` models `undefined` past the end, and an empty next word is falsy). -/
def keepWord (w : Str) (next : Option Str) : Bool :=
  (w != []) &&
    (match next with
     | none => true
     | some x => (x == []) || (toLower w != toLower x))

/-- The cleanup loop of `transcribeAudio`: each keep decision reads the
original following word `words[i + 1]`, independent of earlier drops. -/
def cleanWords : List Str → List Str
  | [] => []
  | w :: rest =>
    if keepWord w rest.head? then w :: cleanWords rest else cleanWords rest

/-- `transcribedText.split(/\s+/).filter(w => w.length > 0)`. -/
def wordsOf (s : Str) : List Str := (splitWs s).filter (fun w => 0 < w.length)

/-- `cleanedWords.join(' ')`. -/
def joinWords (ws : List Str) : Str := List.intercalate (str " ") ws

/-- Sentinel used when the cleaned transcript is empty. -/
def noSpeechMsg : Str := str "No speech detected in the audio file."

/-- Literal truncation marker appended past 50,000 words. -/
def truncMarker : Str := str "\n\n[Transcription truncated at 50,000 words]"

/-- Final text assembly of `transcribeAudio`: the source first joins the
cleaned words, replaces an empty join by `noSpeechMsg`, then overrides the
whole value with the truncated join plus `truncMarker` when
`cleanedWords.length > 50000`; the branches are written here in override
order. -/
def finalizeTranscript (cleanedWords : List Str) : Str :=
  if 50000 < cleanedWords.length then
    joinWords (cleanedWords.take 50000) ++ truncMarker
  else if (joinWords cleanedWords).length = 0 then noSpeechMsg
  else joinWords cleanedWords

/-- Whole post-processing pipeline from the normalized engine text to the
transcript handed to `setTranscription` and `onTranscriptionComplete`. -/
def postProcess (raw : Str) : Str :=
  finalizeTranscript (cleanWords (wordsOf raw))

/-! ### Upload validation (`handleFileUpload`, VoiceRecorder.tsx lines 325-377) -/

/-- An uploaded file: declared MIME type plus the duration the throwaway
audio decoder reports (`none` models the `onerror` path where metadata never
loads). -/
structure AudioFile where
  name : Str
  mimeType : Str
  durationSeconds : Option ℚ

/-- `const allowedTypes = ['audio/mp3', 'audio/mpeg', 'audio/wav', 'audio/wave']`. -/
def allowedTypes : List Str :=
  [str "audio/mp3", str "audio/mpeg", str "audio/wav", str "audio/wave"]

/-- The component state touched by the upload handler. -/
structure UploadState where
  uploadedFile : Option AudioFile
  audioUrl : Option Str

/-- Which exit the handler took (each maps to one toast in the source). -/
inductive UploadOutcome where
  | rejectedType
  | loadError
  | rejectedTooLong
  | accepted

/-- `handleFileUpload`: MIME gate first (before any object URL is created or
any duration probe runs), then the 40-minute duration ceiling; the third
component lists the object URLs revoked during the call. -/
def handleFileUpload (url : Str) (file : AudioFile) (st : UploadState) :
    UploadState × UploadOutcome × List Str :=
  if !(allowedTypes.contains file.mimeType) then
    (st, UploadOutcome.rejectedType, [])
  else
    match file.durationSeconds with
    | none => (st, UploadOutcome.loadError, [url])
    | some duration =>
      let durationInMinutes := duration / 60
      if 40 < durationInMinutes then
        (st, UploadOutcome.rejectedTooLong, [url])
      else
        ({ uploadedFile := some file, audioUrl := some url },
         UploadOutcome.accepted, [])

/-! ### Live dictation (`recognition.onresult`, src/unnamed/part_000 and part_001) -/

/-- One recognition result: `event.results[i][0].transcript` plus
`event.results[i].isFinal`. -/
structure SpeechResult where
  transcript : Str
  isFinal : Bool

/-- A recognition event: results at or after `resultIndex` are processed. -/
structure SpeechEvent where
  resultIndex : Nat
  results : List SpeechResult

/-- Live-strategy state: the accumulated transcript, the ephemeral interim
text, and the record of `onTranscriptionComplete` invocations. -/
structure LiveState where
  transcription : Str
  interim : Str
  completions : List Str

/-- `finalTranscript`: concatenation of the final results, each with a
trailing space, in event order. -/
def finalsText : List SpeechResult → Str
  | [] => []
  | r :: rs =>
    if r.isFinal then r.transcript ++ str " " ++ finalsText rs
    else finalsText rs

/-- `interimTranscript`: concatenation of the non-final results, in event
order. -/
def interimText : List SpeechResult → Str
  | [] => []
  | r :: rs =>
    if r.isFinal then interimText rs
    else r.transcript ++ interimText rs

/-- The `onresult` handler: when any final text accrued, append it to the
transcript and call `onTranscriptionComplete` once with the updated full
transcript; always overwrite the interim text. -/
def onresult (ev : SpeechEvent) (st : LiveState) : LiveState :=
  let rs := ev.results.drop ev.resultIndex
  let finalT := finalsText rs
  let interimT := interimText rs
  let st1 :=
    if finalT ≠ [] then
      { st with
        transcription := st.transcription ++ finalT,
        completions := st.completions ++ [st.transcription ++ finalT] }
    else st
  { st1 with interim := interimT }

/-! ### Notes formatter (NotesGenerator.tsx) -/

/-- The `NotesData` interface. -/
structure NotesData where
  keyPoints : List Str
  abbreviations : List (Str × Str)
  uniqueWords : List Str
  generatedDate : Str

/-- Characters of the sentence-splitting class `[.!?]`. -/
def isSentenceTerminator (c : Char) : Bool := c == '.' || c == '!' || c == '?'

/-- `text.split(/[.!?]+/).filter(s => s.trim().length > 10)`. -/
def sentencesOf (text : Str) : List Str :=
  (splitOnPred isSentenceTerminator text).filter (fun s => 10 < (trim s).length)

/-- `sentences.slice(0, Math.min(8, sentences.length))` followed by
`keyPoints.map(p => p.trim()).filter(p => p.length > 0)`. -/
def keyPointsOf (text : Str) : List Str :=
  let sentences := sentencesOf text
  let keyPoints := sentences.take (min 8 sentences.length)
  (keyPoints.map trim).filter (fun p => 0 < p.length)

/-- The fixed stop-word set `commonWords`. -/
def commonWords : List Str :=
  [str "the", str "and", str "or", str "but", str "in", str "on", str "at",
   str "to", str "for", str "of", str "with", str "by", str "is", str "are",
   str "was", str "were", str "be", str "been", str "being", str "have",
   str "has", str "had", str "do", str "does", str "did", str "will",
   str "would", str "could", str "should", str "may", str "might",
   str "must", str "can", str "this", str "that", str "these", str "those",
   str "a", str "an"]

/-- `filter((word, index, arr) => arr.indexOf(word) === index)`: keep the
first occurrence of each word. -/
def dedupFirst (seen : List Str) : List Str → List Str
  | [] => []
  | w :: ws =>
    if seen.contains w then dedupFirst seen ws
    else w :: dedupFirst (w :: seen) ws

/-- The `uniqueWords` pipeline of `generateMockNotes`. -/
def uniqueWordsOf (text : Str) : List Str :=
  let words := splitWs (toLower text)
  (dedupFirst []
    (words.filter (fun w => 4 < w.length && !(commonWords.contains w)))).take 6

/-- The hard-coded abbreviation glossary. -/
def abbreviationsList : List (Str × Str) :=
  [(str "AI", str "Artificial Intelligence"),
   (str "ML", str "Machine Learning"),
   (str "API", str "Application Programming Interface"),
   (str "UI/UX", str "User Interface/User Experience"),
   (str "SaaS", str "Software as a Service"),
   (str "CRM", str "Customer Relationship Management")]

/-- `generateMockNotes`; the generation date (`new Date().toLocaleDateString()`)
is ambient and passed in as `today`. -/
def generateMockNotes (today text : Str) : NotesData :=
  { keyPoints := keyPointsOf text
    abbreviations := abbreviationsList
    uniqueWords := uniqueWordsOf text
    generatedDate := today }

/-- `generateNotes`: the guard `if (!transcription.trim())` rejects with a
toast (second component `true`) leaving the notes state unchanged; otherwise
the mock notes replace the state. -/
def generateNotes (today transcription : Str) (prev : Option NotesData) :
    Option NotesData × Bool :=
  if trim transcription = [] then (prev, true)
  else (some (generateMockNotes today transcription), false)

/-! ### Notes export (`downloadNotes` and `copyToClipboard`, NotesGenerator.tsx) -/

/-- Markdown rendering of one key point. -/
def mdKeyPointItem (point : Str) : Str := str "• " ++ point ++ str "\n\n"

/-- Markdown rendering of one abbreviation entry. -/
def mdAbbrevItem (item : Str × Str) : Str :=
  str "**" ++ item.1 ++ str "**: " ++ item.2 ++ str "\n\n"

/-- Markdown rendering of one key term. -/
def mdKeyTermItem (word : Str) : Str := str "• " ++ word ++ str "\n\n"

/-- Markdown generation-date footer. -/
def mdFooter (d : Str) : Str :=
  str "---\n\n*Generated on " ++ d ++ str " using AI Notes Generator*"

/-- Plain-text rendering of one key point. -/
def txtKeyPointItem (point : Str) : Str := str "• " ++ point ++ str "\n"

/-- Plain-text rendering of one abbreviation entry. -/
def txtAbbrevItem (item : Str × Str) : Str :=
  item.1 ++ str ": " ++ item.2 ++ str "\n"

/-- Plain-text rendering of one key term. -/
def txtKeyTermItem (word : Str) : Str := str "• " ++ word ++ str "\n"

/-- Plain-text generation-date footer. -/
def txtFooter (d : Str) : Str := str "\nGenerated on " ++ d

/-- `downloadNotes`: the Markdown content, built by sequential `+=` over the
notes fields (key points, then abbreviations, then key terms when present,
then the footer). -/
def markdownOfNotes (notes : NotesData) : Str :=
  let s1 := notes.keyPoints.foldl
    (fun acc point => acc ++ mdKeyPointItem point)
    (str "# Study Notes\n\n" ++ str "## Key Points\n\n")
  let s2 := s1 ++ str "## Abbreviations & Keywords\n\n"
  let s3 := notes.abbreviations.foldl (fun acc item => acc ++ mdAbbrevItem item) s2
  let s4 :=
    if 0 < notes.uniqueWords.length then
      notes.uniqueWords.foldl (fun acc word => acc ++ mdKeyTermItem word)
        (s3 ++ str "## Key Terms\n\n")
    else s3
  s4 ++ mdFooter notes.generatedDate

/-- `copyToClipboard`: the plain-text content, built by sequential `+=` over
the same notes fields in the same order. -/
def clipboardTextOfNotes (notes : NotesData) : Str :=
  let s1 := notes.keyPoints.foldl
    (fun acc point => acc ++ txtKeyPointItem point)
    (str "STUDY NOTES\n\n" ++ str "KEY POINTS:\n")
  let s2 := s1 ++ str "\nABBREVIATIONS & KEYWORDS:\n"
  let s3 := notes.abbreviations.foldl (fun acc item => acc ++ txtAbbrevItem item) s2
  let s4 :=
    if 0 < notes.uniqueWords.length then
      notes.uniqueWords.foldl (fun acc word => acc ++ txtKeyTermItem word)
        (s3 ++ str "\nKEY TERMS:\n")
    else s3
  s4 ++ txtFooter notes.generatedDate

/-- Item-wise concatenation, used to state the common section skeleton of the
two export formats. -/
def concatMap {α : Type} (f : α → Str) : List α → Str
  | [] => []
  | x :: xs => f x ++ concatMap f xs

/-- The common section skeleton both export formats instantiate: a header
with the key-points heading, one rendered item per key point in list order,
the abbreviations heading and items, the key-terms section when present, and
the generation-date footer. -/
def renderSections (head abHead ktHead : Str) (kp : Str → Str)
    (ab : Str × Str → Str) (kt : Str → Str) (foot : Str → Str)
    (n : NotesData) : Str :=
  head ++ concatMap kp n.keyPoints
    ++ abHead ++ concatMap ab n.abbreviations
    ++ (if 0 < n.uniqueWords.length then ktHead ++ concatMap kt n.uniqueWords
        else [])
    ++ foot n.generatedDate

/-! ### Lemmas about the adjacent-duplicate cleanup -/

theorem cleanWords_cons (w : Str) (rest : List Str) :
    cleanWords (w :: rest) =
      if keepWord w rest.head? then w :: cleanWords rest else cleanWords rest :=
  rfl

theorem cleanWords_sublist (ws : List Str) :
    List.Sublist (cleanWords ws) ws := by
  induction ws with
  | nil => simp [cleanWords]
  | cons w rest ih =>
    rw [cleanWords_cons]
    by_cases hk : keepWord w rest.head? = true
    · rw [if_pos hk]
      exact List.Sublist.cons₂ w ih
    · rw [if_neg hk]
      exact List.Sublist.cons w ih

theorem mem_of_mem_cleanWords {x : Str} {ws : List Str}
    (h : x ∈ cleanWords ws) : x ∈ ws :=
  (cleanWords_sublist ws).subset h

theorem cleanWords_head_toLower :
    ∀ (rest : List Str) (w : Str), w ≠ [] → (∀ x ∈ rest, x ≠ []) →
      ∃ h t, cleanWords (w :: rest) = h :: t ∧ toLower h = toLower w := by
  intro rest
  induction rest with
  | nil =>
    intro w hw _
    refine ⟨w, [], ?_, rfl⟩
    simp [cleanWords, keepWord, hw]
  | cons x rs ih =>
    intro w hw hall
    have hx : x ≠ [] := hall x (by simp)
    by_cases hc : toLower w = toLower x
    · have hk : keepWord w (some x) = false := by
        simp [keepWord, hx, hc]
      obtain ⟨h, t, heq, hlow⟩ := ih x hx (fun y hy => hall y (by simp [hy]))
      refine ⟨h, t, ?_, by rw [hlow, hc]⟩
      rw [cleanWords_cons]
      simp only [List.head?_cons, hk, Bool.false_eq_true, if_false]
      exact heq
    · have hk : keepWord w (some x) = true := by
        simp [keepWord, hw, hc]
      refine ⟨w, cleanWords (x :: rs), ?_, rfl⟩
      rw [cleanWords_cons]
      simp only [List.head?_cons, hk, if_true]

theorem cleanWords_chain (ws : List Str) (hws : ∀ w ∈ ws, w ≠ []) :
    List.Chain' (fun a b => toLower a ≠ toLower b) (cleanWords ws) := by
  induction ws with
  | nil => simp [cleanWords]
  | cons w rest ih =>
    have hw : w ≠ [] := hws w (by simp)
    have hrest : ∀ x ∈ rest, x ≠ [] := fun x hx => hws x (by simp [hx])
    cases rest with
    | nil => simp [cleanWords, keepWord, hw]
    | cons x rs =>
      have hx : x ≠ [] := hrest x (by simp)
      have ihr := ih hrest
      by_cases hc : toLower w = toLower x
      · have hk : keepWord w (some x) = false := by
          simp [keepWord, hx, hc]
        rw [cleanWords_cons]
        simp only [List.head?_cons, hk, Bool.false_eq_true, if_false]
        exact ihr
      · have hk : keepWord w (some x) = true := by
          simp [keepWord, hw, hc]
        rw [cleanWords_cons]
        simp only [List.head?_cons, hk, if_true]
        obtain ⟨h, t, heq, hlow⟩ := cleanWords_head_toLower rs x hx
          (fun y hy => hrest y (by simp [hy]))
        rw [heq]
        rw [List.chain'_cons]
        refine ⟨by rw [hlow]; exact hc, ?_⟩
        rw [heq] at ihr
        exact ihr

theorem cleanWords_of_chain (ws : List Str) (hws : ∀ w ∈ ws, w ≠ [])
    (hch : List.Chain' (fun a b => toLower a ≠ toLower b) ws) :
    cleanWords ws = ws := by
  induction ws with
  | nil => simp [cleanWords]
  | cons w rest ih =>
    have hw : w ≠ [] := hws w (by simp)
    have hrest : ∀ x ∈ rest, x ≠ [] := fun x hx => hws x (by simp [hx])
    cases rest with
    | nil => simp [cleanWords, keepWord, hw]
    | cons x rs =>
      rw [List.chain'_cons] at hch
      have hk : keepWord w (some x) = true := by
        simp [keepWord, hw, hch.1]
      rw [cleanWords_cons]
      simp only [List.head?_cons, hk, if_true]
      rw [ih hrest hch.2]

theorem cleanWords_replicate (w : Str) (hw : w ≠ []) :
    ∀ n : Nat, cleanWords (List.replicate (n + 1) w) = [w] := by
  intro n
  induction n with
  | zero => simp [cleanWords, keepWord, hw]
  | succ n ih =>
    have hk : keepWord w (some w) = false := by simp [keepWord]
    have hstep : List.replicate (n + 1 + 1) w = w :: List.replicate (n + 1) w :=
      List.replicate_succ w (n + 1)
    rw [hstep, cleanWords_cons]
    have hhead : (List.replicate (n + 1) w).head? = some w := by
      rw [List.replicate_succ]
      rfl
    simp only [hhead, hk, Bool.false_eq_true, if_false]
    exact ih

/-- C10: the cleanup output never contains two consecutive words equal after
lowercasing, a run of n + 1 identical words collapses to exactly one word,
and the cleanup is idempotent on any whitespace-split word list (whose words
are all nonempty). -/
theorem cleanup_no_adjacent_dups (ws : List Str) (hws : ∀ w ∈ ws, w ≠ []) :
    List.Chain' (fun a b => toLower a ≠ toLower b) (cleanWords ws) ∧
    (∀ (n : Nat) (w : Str), w ≠ [] →
      cleanWords (List.replicate (n + 1) w) = [w]) ∧
    cleanWords (cleanWords ws) = cleanWords ws := by
  refine ⟨cleanWords_chain ws hws, fun n w hw => cleanWords_replicate w hw n, ?_⟩
  exact cleanWords_of_chain (cleanWords ws)
    (fun w hw => hws w (mem_of_mem_cleanWords hw))
    (cleanWords_chain ws hws)

/-- C10 witness: the properties at a concrete word list. -/
theorem cleanup_no_adjacent_dups_witness :
    List.Chain' (fun a b => toLower a ≠ toLower b)
      (cleanWords [str "go", str "go", str "stop"]) ∧
    cleanWords (List.replicate 3 (str "go")) = [str "go"] ∧
    cleanWords (cleanWords [str "go", str "go", str "stop"]) =
      cleanWords [str "go", str "go", str "stop"] := by
  obtain ⟨h1, h2, h3⟩ :=
    cleanup_no_adjacent_dups [str "go", str "go", str "stop"] (by decide)
  exact ⟨h1, h2 2 (str "go") (by decide), h3⟩

/-- C1 counterexample: the cleanup compares words case-insensitively, so with
w = "A" and x = "a" the list [w, x, w] is not left unchanged — the word "A"
is dropped although the immediately following word "a" is not identical to
it. -/
theorem dedup_case_sensitivity_counterexample :
    cleanWords [str "A", str "a", str "A"] = [str "A"] ∧
    cleanWords [str "A", str "a", str "A"] ≠ [str "A", str "a", str "A"] := by
  decide

/-- C1 (amended): a word is dropped exactly when the immediately following
word is equal to it after lowercasing; for nonempty words w, x that differ
after lowercasing, [w, w, x] produces [w, x] and [w, x, w] is unchanged
(dedup applies only to immediately adjacent repeats, never across a gap). -/
theorem dedup_adjacent_amended (w x : Str) (hw : w ≠ []) (hx : x ≠ [])
    (hne : toLower w ≠ toLower x) :
    cleanWords [w, w, x] = [w, x] ∧ cleanWords [w, x, w] = [w, x, w] := by
  have hxw : toLower x ≠ toLower w := Ne.symm hne
  constructor <;> simp [cleanWords, keepWord, hw, hx, hne, hxw]

/-- C1 witness: the amended dedup examples at concrete words. -/
theorem dedup_adjacent_witness :
    cleanWords [str "very", str "very", str "fox"] = [str "very", str "fox"] ∧
    cleanWords [str "very", str "fox", str "very"] =
      [str "very", str "fox", str "very"] :=
  dedup_adjacent_amended (str "very") (str "fox") (by decide) (by decide)
    (by decide)

/-! ### Truncation and the empty-transcript sentinel -/

/-- C2: a cleaned word list of exactly 50,001 words yields the first 50,000
words joined by single spaces with the literal truncation marker appended; a
list of at most 50,000 words is never truncated and gets no marker (the
result is exactly the join, or the no-speech sentinel when the join is
empty). -/
theorem batch_truncation (cleanedWords : List Str) :
    (cleanedWords.length = 50001 →
      finalizeTranscript cleanedWords =
        joinWords (cleanedWords.take 50000) ++ truncMarker) ∧
    (cleanedWords.length ≤ 50000 →
      finalizeTranscript cleanedWords =
        if (joinWords cleanedWords).length = 0 then noSpeechMsg
        else joinWords cleanedWords) := by
  constructor
  · intro h
    unfold finalizeTranscript
    rw [if_pos (by omega)]
  · intro h
    unfold finalizeTranscript
    rw [if_neg (by omega)]

/-- C2 witness: a 50,001-word list is truncated with the marker; a short list
is returned verbatim. -/
theorem batch_truncation_witness :
    finalizeTranscript (List.replicate 50001 (str "a")) =
      joinWords ((List.replicate 50001 (str "a")).take 50000) ++ truncMarker ∧
    finalizeTranscript [str "hi"] = str "hi" := by
  constructor
  · exact (batch_truncation (List.replicate 50001 (str "a"))).1
      (by rw [List.length_replicate])
  · rw [(batch_truncation [str "hi"]).2 (by norm_num)]
    decide

/-- C9: when the cleaned output is empty, the batch transcript is the literal
sentinel "No speech detected in the audio file.", which is neither the empty
string nor whitespace-only (so notes generation can run on it). -/
theorem batch_empty_sentinel (raw : Str)
    (h : cleanWords (wordsOf raw) = []) :
    postProcess raw = noSpeechMsg ∧ noSpeechMsg ≠ [] ∧ trim noSpeechMsg ≠ [] := by
  refine ⟨?_, by decide, by decide⟩
  unfold postProcess
  rw [h]
  decide

/-- C9 witness: a whitespace-only engine output produces the sentinel. -/
theorem batch_empty_sentinel_witness :
    postProcess (str "   ") = noSpeechMsg :=
  (batch_empty_sentinel (str "   ") (by decide)).1

/-! ### Key-point extraction -/

/-- C3 counterexample: a fragment of trimmed length exactly 10 is discarded
(the filter keeps only fragments of trimmed length strictly greater than 10),
so a transcript whose only sentence has 10 characters yields no key point at
all. -/
theorem keypoints_threshold_counterexample :
    (generateMockNotes (str "1/1/2024") (str "abcdefghij.")).keyPoints = [] ∧
    (trim (str "abcdefghij")).length = 10 := by
  decide

/-- C3 (amended): the notes formatter splits the transcript on
sentence-terminating punctuation and discards fragments of trimmed length at
most 10 (only fragments of trimmed length strictly greater than 10 qualify);
a transcript with exactly 3 sentences over 10 characters each produces
exactly 3 key points, in original order, and at most 8 key points are ever
produced. -/
theorem keypoints_amended (d text : Str) :
    (generateMockNotes d (str "aaaaaaaaaaa. bbbbbbbbbbb! ccccccccccc?")).keyPoints
        = [str "aaaaaaaaaaa", str "bbbbbbbbbbb", str "ccccccccccc"] ∧
    (generateMockNotes d text).keyPoints.length ≤ 8 ∧
    (∀ p ∈ (generateMockNotes d text).keyPoints, 10 < p.length) := by
  refine ⟨by simp only [generateMockNotes]; decide, ?_, ?_⟩
  · simp only [generateMockNotes, keyPointsOf]
    refine le_trans (List.length_filter_le _ _) ?_
    rw [List.length_map, List.length_take]
    omega
  · intro p hp
    simp only [generateMockNotes, keyPointsOf, List.mem_filter,
      List.mem_map] at hp
    obtain ⟨⟨q, hq, rfl⟩, -⟩ := hp
    have hq2 : q ∈ sentencesOf text := List.mem_of_mem_take hq
    simp only [sentencesOf, List.mem_filter, decide_eq_true_eq] at hq2
    exact hq2.2

/-- C3 witness: the three-sentence example and the length bound at the first
produced key point. -/
theorem keypoints_amended_witness :
    (generateMockNotes (str "1/2/2024")
        (str "aaaaaaaaaaa. bbbbbbbbbbb! ccccccccccc?")).keyPoints
      = [str "aaaaaaaaaaa", str "bbbbbbbbbbb", str "ccccccccccc"] ∧
    10 < (str "aaaaaaaaaaa").length := by
  refine ⟨(keypoints_amended (str "1/2/2024") (str "x")).1, ?_⟩
  exact (keypoints_amended (str "1/2/2024")
      (str "aaaaaaaaaaa. bbbbbbbbbbb! ccccccccccc?")).2.2
    (str "aaaaaaaaaaa") (by decide)

/-- C7: notes generation on an empty or whitespace-only transcript is a
guarded no-op (the stored notes are unchanged and the user is notified), and
a notes object is produced exactly when the transcript has non-whitespace
text. -/
theorem notes_generation_guard (today t : Str) (prev : Option NotesData) :
    (trim t = [] → generateNotes today t prev = (prev, true)) ∧
    (trim t ≠ [] →
      generateNotes today t prev = (some (generateMockNotes today t), false)) := by
  constructor <;> intro h <;> simp [generateNotes, h]

/-- C7 witness: a whitespace-only transcript is rejected with state
unchanged; a non-blank transcript produces the mock notes. -/
theorem notes_generation_guard_witness :
    generateNotes (str "1/1/2024") (str "   ") none = (none, true) ∧
    generateNotes (str "1/1/2024") (str "hello") none =
      (some (generateMockNotes (str "1/1/2024") (str "hello")), false) :=
  ⟨(notes_generation_guard (str "1/1/2024") (str "   ") none).1 (by decide),
   (notes_generation_guard (str "1/1/2024") (str "hello") none).2 (by decide)⟩

/-! ### Export parity -/

theorem foldl_concat {α : Type} (f : α → Str) :
    ∀ (l : List α) (acc : Str),
      l.foldl (fun a x => a ++ f x) acc = acc ++ concatMap f l := by
  intro l
  induction l with
  | nil => intro acc; simp [concatMap]
  | cons x xs ih =>
    intro acc
    rw [List.foldl_cons, ih (acc ++ f x)]
    simp [concatMap, List.append_assoc]

/-- C4: the Markdown download and the plain-text clipboard copy factor
through the same section skeleton `renderSections`: the same key points in
the same list order, then the abbreviations, then the key terms, then the
generation-date footer — only the per-item and per-heading text differs. -/
theorem notes_export_parity (n : NotesData) :
    markdownOfNotes n =
      renderSections (str "# Study Notes\n\n" ++ str "## Key Points\n\n")
        (str "## Abbreviations & Keywords\n\n") (str "## Key Terms\n\n")
        mdKeyPointItem mdAbbrevItem mdKeyTermItem mdFooter n ∧
    clipboardTextOfNotes n =
      renderSections (str "STUDY NOTES\n\n" ++ str "KEY POINTS:\n")
        (str "\nABBREVIATIONS & KEYWORDS:\n") (str "\nKEY TERMS:\n")
        txtKeyPointItem txtAbbrevItem txtKeyTermItem txtFooter n := by
  constructor <;>
  · simp only [markdownOfNotes, clipboardTextOfNotes, renderSections,
      foldl_concat]
    by_cases h : 0 < n.uniqueWords.length <;>
      simp [h, List.append_assoc]

/-! ### Upload validation -/

/-- C5: a file is accepted only when its declared MIME type is one of
audio/mp3, audio/mpeg, audio/wav, audio/wave; any other type is rejected
with a user-facing error before any duration probe (the result is the same
for every possible duration), leaving the uploaded-file and audio-URL state
unchanged and releasing nothing. -/
theorem upload_type_gate (url : Str) (f : AudioFile) (st : UploadState) :
    ((handleFileUpload url f st).2.1 = UploadOutcome.accepted →
      allowedTypes.contains f.mimeType = true) ∧
    (allowedTypes.contains f.mimeType = false →
      ∀ d : Option ℚ,
        handleFileUpload url { f with durationSeconds := d } st =
          (st, UploadOutcome.rejectedType, [])) := by
  constructor
  · intro h
    by_cases hc : allowedTypes.contains f.mimeType = true
    · exact hc
    · rw [Bool.not_eq_true] at hc
      have hmem : f.mimeType ∉ allowedTypes := by simpa using hc
      simp [handleFileUpload, hmem] at h
  · intro hc d
    have hmem : f.mimeType ∉ allowedTypes := by simpa using hc
    simp [handleFileUpload, hmem]

/-- C5 witness: an audio/ogg upload is rejected by type with the state
untouched and no URL released. -/
theorem upload_type_gate_witness :
    handleFileUpload (str "blob:1")
        (AudioFile.mk (str "song.ogg") (str "audio/ogg") (some 10))
        (UploadState.mk none none) =
      (UploadState.mk none none, UploadOutcome.rejectedType, []) := by
  have h := (upload_type_gate (str "blob:1")
      (AudioFile.mk (str "song.ogg") (str "audio/ogg") (some 10))
      (UploadState.mk none none)).2 (by decide) (some 10)
  simpa using h

/-- C6: an accepted-type upload whose decoded duration exceeds 40 minutes is
rejected as too long, with the temporary object URI released and the
uploaded file not set; at most 40 minutes, it is accepted and the URI is
retained for playback. -/
theorem upload_duration_gate (url : Str) (f : AudioFile) (st : UploadState)
    (d : ℚ) (hty : allowedTypes.contains f.mimeType = true)
    (hd : f.durationSeconds = some d) :
    (40 < d / 60 →
      handleFileUpload url f st = (st, UploadOutcome.rejectedTooLong, [url])) ∧
    (d / 60 ≤ 40 →
      handleFileUpload url f st =
        ({ uploadedFile := some f, audioUrl := some url },
         UploadOutcome.accepted, [])) := by
  have hmem : f.mimeType ∈ allowedTypes := by simpa using hty
  constructor
  · intro h
    simp [handleFileUpload, hmem, hd, h]
  · intro h
    simp [handleFileUpload, hmem, hd, not_lt.mpr h]

/-- C6 witness: a 41-minute audio/wav file is rejected as too long with its
URI released; a 1-minute file is accepted with its URI retained. -/
theorem upload_duration_gate_witness :
    handleFileUpload (str "blob:2")
        (AudioFile.mk (str "talk.wav") (str "audio/wav") (some 2460))
        (UploadState.mk none none) =
      (UploadState.mk none none, UploadOutcome.rejectedTooLong, [str "blob:2"]) ∧
    handleFileUpload (str "blob:3")
        (AudioFile.mk (str "short.wav") (str "audio/wav") (some 60))
        (UploadState.mk none none) =
      ({ uploadedFile :=
            some (AudioFile.mk (str "short.wav") (str "audio/wav") (some 60)),
          audioUrl := some (str "blob:3") },
       UploadOutcome.accepted, []) := by
  constructor
  · exact (upload_duration_gate (str "blob:2")
        (AudioFile.mk (str "talk.wav") (str "audio/wav") (some 2460))
        (UploadState.mk none none) 2460 (by decide) rfl).1 (by norm_num)
  · exact (upload_duration_gate (str "blob:3")
        (AudioFile.mk (str "short.wav") (str "audio/wav") (some 60))
        (UploadState.mk none none) 60 (by decide) rfl).2 (by norm_num)

/-! ### Live dictation event handling -/

theorem finalsText_eq_nil (rs : List SpeechResult)
    (h : ∀ r ∈ rs, r.isFinal = false) : finalsText rs = [] := by
  induction rs with
  | nil => rfl
  | cons r rs ih =>
    have hr : r.isFinal = false := h r (by simp)
    simp [finalsText, hr, ih (fun x hx => h x (by simp [hx]))]

theorem finalsText_ne_nil (rs : List SpeechResult)
    (h : ∃ r ∈ rs, r.isFinal = true) : finalsText rs ≠ [] := by
  induction rs with
  | nil => simp at h
  | cons r rs ih =>
    by_cases hr : r.isFinal = true
    · simp [finalsText, hr]
      intro h1 h2
      exact absurd h2 (by decide)
    · rw [Bool.not_eq_true] at hr
      simp only [finalsText, hr, Bool.false_eq_true, if_false]
      rcases h with ⟨r2, hmem, hfin⟩
      rcases List.mem_cons.mp hmem with heq | hmem2
      · rw [heq, hr] at hfin
        exact absurd hfin (by simp)
      · exact ih ⟨r2, hmem2, hfin⟩

/-- C8: a recognition event partitions the results at or after the event
index into final and interim. An event whose results are all interim leaves
the transcript and the completion record unchanged and only replaces the
interim text; an event with at least one final result appends the final text
(each final segment with a trailing space) to the transcript and invokes
onTranscriptionComplete exactly once, with the updated full transcript. A
segment delivered first as interim and then as final therefore ends up in
the transcript exactly once. -/
theorem live_event_partition (ev : SpeechEvent) (st : LiveState) :
    ((∀ r ∈ ev.results.drop ev.resultIndex, r.isFinal = false) →
      onresult ev st =
        { st with interim := interimText (ev.results.drop ev.resultIndex) }) ∧
    ((∃ r ∈ ev.results.drop ev.resultIndex, r.isFinal = true) →
      (onresult ev st).transcription =
          st.transcription ++ finalsText (ev.results.drop ev.resultIndex) ∧
      (onresult ev st).completions =
          st.completions ++
            [st.transcription ++ finalsText (ev.results.drop ev.resultIndex)] ∧
      (onresult ev st).interim =
          interimText (ev.results.drop ev.resultIndex)) ∧
    (∀ s : Str, s ≠ [] →
      (onresult (SpeechEvent.mk 0 [SpeechResult.mk s true])
          (onresult (SpeechEvent.mk 0 [SpeechResult.mk s false])
            (LiveState.mk [] [] []))).transcription = s ++ str " " ∧
      (onresult (SpeechEvent.mk 0 [SpeechResult.mk s true])
          (onresult (SpeechEvent.mk 0 [SpeechResult.mk s false])
            (LiveState.mk [] [] []))).completions = [s ++ str " "]) := by
  refine ⟨?_, ?_, ?_⟩
  · intro h
    have h0 : finalsText (ev.results.drop ev.resultIndex) = [] :=
      finalsText_eq_nil _ h
    simp [onresult, h0]
  · intro h
    have h0 : finalsText (ev.results.drop ev.resultIndex) ≠ [] :=
      finalsText_ne_nil _ h
    simp [onresult, h0]
  · intro s hs
    constructor <;> simp [onresult, finalsText, interimText, hs]

/-- C8 witness: an interim-only event records no completion; a final event
appends the segment with a trailing space; the interim-then-final scenario
yields the segment exactly once. -/
theorem live_event_partition_witness :
    (onresult (SpeechEvent.mk 0 [SpeechResult.mk (str "hi") false])
        (LiveState.mk [] [] [])).completions = [] ∧
    (onresult (SpeechEvent.mk 0 [SpeechResult.mk (str "ok") true])
        (LiveState.mk [] [] [])).transcription = str "ok" ++ str " " ∧
    (onresult (SpeechEvent.mk 0 [SpeechResult.mk (str "hello") true])
        (onresult (SpeechEvent.mk 0 [SpeechResult.mk (str "hello") false])
          (LiveState.mk [] [] []))).transcription = str "hello" ++ str " " := by
  refine ⟨?_, ?_, ?_⟩
  · have h := (live_event_partition
        (SpeechEvent.mk 0 [SpeechResult.mk (str "hi") false])
        (LiveState.mk [] [] [])).1 (by decide)
    rw [h]
  · have h := (live_event_partition
        (SpeechEvent.mk 0 [SpeechResult.mk (str "ok") true])
        (LiveState.mk [] [] [])).2.1 (by decide)
    rw [h.1]
    decide
  · exact ((live_event_partition
        (SpeechEvent.mk 0 [SpeechResult.mk (str "x") false])
        (LiveState.mk [] [] [])).2.2 (str "hello") (by decide)).1

end LectureSummarizer
